import Mathlib

/-!
# Verification of the `iproute` network-object management library

Shallow embedding of the Go package `github.com/hariguchi/iproute` and the
example orchestrator shipped with it.  Pure functions of the source are
translated to Lean functions; the netlink kernel-configuration channel is
modelled as an explicit state (`KState`) threaded through the operations;
Go `error` values are rendered strings (the package classifies errors by
regex-matching their rendered text, so strings are the faithful carrier);
Go nil-pointer panics are modelled by a dedicated result constructor.
-/

deriving instance DecidableEq for Except

namespace Iproute

/-! ## Error-text classification (iproute.go)

`isThisInError` compiles a regular expression and searches the rendered
error text.  The two patterns used by the package are `(already|file) exists`
and `not found`: alternation and concatenation of literals only, so we embed
a small regex AST restricted to those constructs together with an unanchored
backtracking search, translated from the semantics of `regexp.MatchString`. -/

/-- Regex AST: literals, alternation, concatenation — the constructs used by
the patterns in `iproute.go`. -/
inductive RE where
  | lit (s : List Char)
  | alt (a b : RE)
  | seq (a b : RE)

/-- All remainders after matching `re` against a prefix of `l`
(backtracking matcher). -/
def reMatch : RE → List Char → List (List Char)
  | RE.lit s, l => if s.isPrefixOf l then [l.drop s.length] else []
  | RE.alt a b, l => reMatch a l ++ reMatch b l
  | RE.seq a b, l => (reMatch a l).flatMap (reMatch b)

/-- Unanchored search: does `re` match starting at some position of `l`?
This is the semantics of `regexp.MatchString`. -/
def reSearch (re : RE) : List Char → Bool
  | [] => !(reMatch re []).isEmpty
  | c :: rest => !(reMatch re (c :: rest)).isEmpty || reSearch re rest

/-- The pattern `(already|file) exists` of `IsExist` (iproute.go). -/
def reExists : RE :=
  RE.seq (RE.alt (RE.lit "already".data) (RE.lit "file".data)) (RE.lit " exists".data)

/-- The pattern `not found` of `IsNotFound` (iproute.go). -/
def reNotFound : RE := RE.lit "not found".data

/-- `isThisInError` (iproute.go): true iff the regex matches the rendered
error text.  Errors are carried as their rendered text. -/
def isThisInError (re : RE) (err : String) : Bool :=
  reSearch re err.data

/-- `IsExist` (iproute.go). -/
def IsExist (err : String) : Bool := isThisInError reExists err

/-- `IsNotFound` (iproute.go). -/
def IsNotFound (err : String) : Bool := isThisInError reNotFound err

/-! ## Pure route construction (route.go revision, `src/unnamed/part_004`) -/

/-- `net.IPNet`: an IP prefix (address bytes plus mask length). -/
structure IPNet where
  ip : List Nat
  maskLen : Nat
deriving DecidableEq, Repr

/-- `netlink.NexthopInfo` (the fields the package manipulates). -/
structure NHinfo where
  linkIndex : Int := 0
  hops : Int := 0
  gw : List Nat := []
  flags : Int := 0
deriving DecidableEq, Repr

/-- `netlink.Route` (the fields the package manipulates).  The Go `Dst`
field is a pointer, hence `Option`. -/
structure Route where
  dst : Option IPNet := none
  gw : List Nat := []
  multiPath : List NHinfo := []
  table : Int := 0
  rtype : Int := 0
  flags : Int := 0
deriving DecidableEq, Repr

/-- `NewRoute` (src/unnamed/part_004, lines 475–488): pure validation and
construction; the source performs no kernel call, so the embedding takes no
kernel state. -/
def NewRoute (dst : Option IPNet) (nh : List (List Nat)) : Except String Route :=
  match dst with
  | none => Except.error "ERROR: NewRoute(): dst is nil"
  | some d =>
    if nh.length ≤ 0 then
      Except.error "ERROR: NewRoute(): # of nh is <= 0"
    else
      Except.ok { dst := some d, multiPath := nh.map (fun ipa => { gw := ipa }) }

/-! ## IP byte-string comparison (`IPs.Less`, iproute.go) -/

/-- Result of a Go function that may panic. -/
inductive PanicOr (α : Type) where
  | panicked
  | ok (a : α)
deriving DecidableEq, Repr

/-- `bytes.Compare`: lexicographic three-way comparison of byte strings. -/
def bytesCompare : List Nat → List Nat → Int
  | [], [] => 0
  | [], _ :: _ => -1
  | _ :: _, [] => 1
  | x :: xs, y :: ys =>
    if x < y then -1 else if y < x then 1 else bytesCompare xs ys

/-- `IPs.Less` (iproute.go, lines 96–105): panics when the two addresses
have different byte lengths (and, as any Go slice indexing, on an
out-of-range index), otherwise compares bytes. -/
def IPsLess (a : List (List Nat)) (i j : Nat) : PanicOr Bool :=
  match a[i]?, a[j]? with
  | some x, some y =>
    if x.length ≠ y.length then PanicOr.panicked
    else PanicOr.ok (decide (bytesCompare x y < 0))
  | _, _ => PanicOr.panicked

/-- Spec-side byte-lexicographic strict order (for comparison with the
behaviour of `IPsLess`). -/
def lexLt : List Nat → List Nat → Bool
  | _, [] => false
  | [], _ :: _ => true
  | x :: xs, y :: ys => decide (x < y) || (decide (x = y) && lexLt xs ys)

/-! ## Model of the kernel configuration channel (netlink)

The kernel state visible from the current network namespace: link objects
with their attributes, the next ifindex the kernel will assign, a route
table, and a failure oracle for `LinkSetUp` (administrative bring-up can
fail in the kernel for reasons outside this model; the oracle records for
which interface names it does). -/

/-- Interface kind (`link.Type()` / concrete `netlink.Link` type). -/
inductive LinkKind where
  | veth
  | bridge
  | vrf
  | vlan
  | other
deriving DecidableEq, Repr

/-- A kernel link object (the attributes this package reads or writes). -/
structure LinkObj where
  name : String
  index : Nat
  kind : LinkKind := LinkKind.other
  up : Bool := false
  master : Option Nat := none
  addrs : List IPNet := []
  peerIndex : Option Nat := none
  vrfTable : Nat := 0
  txQLen : Int := 0
  mtu : Int := 0
  numTxQueues : Int := 0
  numRxQueues : Int := 0
deriving DecidableEq, Repr

/-- A kernel route entry (the fields `RouteListFiltered` filters on). -/
structure RouteObj where
  family : Int := 0
  table : Int := 0
  rtype : Int := 0
  dst : Option IPNet := none
deriving DecidableEq, Repr

/-- Kernel state visible from the current namespace. -/
structure KState where
  links : List LinkObj := []
  nextIndex : Nat := 1
  routes : List RouteObj := []
  setUpFails : List String := []
deriving DecidableEq, Repr

/-- `netlink.LinkByName`: resolve a link by name; the netlink library
reports failure as a `LinkNotFoundError` rendering as "Link not found". -/
def linkByName (s : KState) (name : String) : Except String LinkObj :=
  match s.links.find? (fun l => l.name = name) with
  | some l => Except.ok l
  | none => Except.error "Link not found"

/-- `netlink.LinkByIndex`: resolve a link by ifindex. -/
def linkByIndex (s : KState) (idx : Nat) : Except String LinkObj :=
  match s.links.find? (fun l => l.index = idx) with
  | some l => Except.ok l
  | none => Except.error "Link not found"

/-- Replace the stored attributes of the link with index `idx`. -/
def updateLink (s : KState) (idx : Nat) (f : LinkObj → LinkObj) : KState :=
  { s with links := s.links.map (fun l => if l.index = idx then f l else l) }

/-- `netlink.LinkAdd` for single-link kinds (bridge, vrf, vlan): fails with
the kernel's EEXIST text when the name is taken, otherwise inserts the link
with the next ifindex. -/
def linkAddSingle (s : KState) (l : LinkObj) : Except String KState :=
  if (s.links.find? (fun x => x.name = l.name)).isSome then
    Except.error "file exists"
  else
    Except.ok { s with
      links := s.links ++ [{ l with index := s.nextIndex }],
      nextIndex := s.nextIndex + 1 }

/-- `netlink.LinkAdd` on a `netlink.Veth`: the kernel creates the two
endpoints atomically, cross-linked as peers; EEXIST when either name is
taken. -/
def linkAddVethPair (s : KState) (l : LinkObj) (peerName : String) :
    Except String KState :=
  if (s.links.find? (fun x => x.name = l.name || x.name = peerName)).isSome then
    Except.error "file exists"
  else
    let i := s.nextIndex
    let j := s.nextIndex + 1
    Except.ok { s with
      links := s.links ++
        [{ l with index := i, kind := LinkKind.veth, peerIndex := some j },
         { l with name := peerName, index := j, kind := LinkKind.veth,
                  peerIndex := some i }],
      nextIndex := s.nextIndex + 2 }

/-- `netlink.LinkSetUp`: set the administrative state of `l`'s kernel
object up; may fail (oracle `setUpFails`). -/
def linkSetUp (s : KState) (l : LinkObj) : Except String KState :=
  if s.setUpFails.contains l.name then
    Except.error "operation not permitted"
  else
    Except.ok (updateLink s l.index (fun x => { x with up := true }))

/-- `netlink.LinkSetDown`. -/
def linkSetDown (s : KState) (l : LinkObj) : Except String KState :=
  Except.ok (updateLink s l.index (fun x => { x with up := false }))

/-- `netlink.LinkSetMasterByIndex` / `netlink.LinkSetMaster`: bind `l` to
the master with ifindex `masterIdx` (rebinding simply changes the master). -/
def linkSetMasterByIndex (s : KState) (l : LinkObj) (masterIdx : Nat) :
    Except String KState :=
  Except.ok (updateLink s l.index (fun x => { x with master := some masterIdx }))

/-- `netlink.AddrAdd`: EEXIST when the exact prefix is already bound. -/
def addrAdd (s : KState) (l : LinkObj) (addr : IPNet) : Except String KState :=
  match linkByIndex s l.index with
  | Except.error e => Except.error e
  | Except.ok cur =>
    if cur.addrs.contains addr then
      Except.error "file exists"
    else
      Except.ok (updateLink s l.index (fun x => { x with addrs := x.addrs ++ [addr] }))

/-- `netlink.AddrReplace` (NLM_F_CREATE|NLM_F_REPLACE): add the prefix
unless the exact prefix is already bound, in which case replacing it is a
no-op; never EEXIST. -/
def addrReplace (s : KState) (l : LinkObj) (addr : IPNet) : Except String KState :=
  match linkByIndex s l.index with
  | Except.error e => Except.error e
  | Except.ok cur =>
    if cur.addrs.contains addr then
      Except.ok s
    else
      Except.ok (updateLink s l.index (fun x => { x with addrs := x.addrs ++ [addr] }))

/-- `netlink.VethPeerIndex`: the ifindex of the peer endpoint (available
even when the peer itself resides in another namespace). -/
def vethPeerIndex (l : LinkObj) : Except String Nat :=
  match l.peerIndex with
  | some i => Except.ok i
  | none => Except.error "no peer index"

/-! ## Address operations on a named interface (link.go) -/

/-- `IpAddrAdd` (link.go, lines 233–245). -/
def IpAddrAdd (s : KState) (name : String) (addr : IPNet) (up : Bool) :
    Except String KState :=
  match linkByName s name with
  | Except.error e => Except.error e
  | Except.ok l =>
    match addrAdd s l addr with
    | Except.error e => Except.error e
    | Except.ok s1 =>
      if up then linkSetUp s1 l else Except.ok s1

/-- `IpAddrReplace` (link.go, lines 268–281). -/
def IpAddrReplace (s : KState) (name : String) (addr : IPNet) (up : Bool) :
    Except String KState :=
  match linkByName s name with
  | Except.error e => Except.error e
  | Except.ok l =>
    match addrReplace s l addr with
    | Except.error e => Except.error e
    | Except.ok s1 =>
      if up then linkSetUp s1 l else Except.ok s1

/-! ## Veth pairs (src/unnamed/part_001 revision: `Veth` holds link
handles, and a peer in another namespace is a nil `Peer`) -/

/-- `Veth` (src/unnamed/part_001): local endpoint handle plus a possibly
nil peer handle. -/
structure Veth where
  link : LinkObj
  peer : Option LinkObj := none
deriving DecidableEq, Repr

/-- `Veth.Name` (src/unnamed/part_001). -/
def Veth.name (v : Veth) : String := v.link.name

/-- `Veth.PeerName` (src/unnamed/part_001): empty string when the peer is
unresolved. -/
def Veth.peerName (v : Veth) : String :=
  match v.peer with
  | none => ""
  | some p => p.name

/-- `VethGetLinkByName` (src/unnamed/part_001, lines 36–47). -/
def VethGetLinkByName (s : KState) (name : String) : Except String LinkObj :=
  match linkByName s name with
  | Except.ok l =>
    if l.kind = LinkKind.veth then Except.ok l
    else Except.error ("VethGetLinkByName(" ++ name ++ "): not veth")
  | Except.error e =>
    Except.error ("VethGetLinkByName(" ++ name ++ "): " ++ e)

/-- `VethGetPeerLinkByName` (src/unnamed/part_001, lines 56–76). -/
def VethGetPeerLinkByName (s : KState) (name : String) : Except String LinkObj :=
  match linkByName s name with
  | Except.ok l =>
    if l.kind = LinkKind.veth then
      match vethPeerIndex l with
      | Except.ok idx =>
        match linkByIndex s idx with
        | Except.ok p => Except.ok p
        | Except.error e => Except.error ("LinkByIndex(" ++ name ++ "): " ++ e)
      | Except.error e => Except.error ("VethPeerIndex(" ++ name ++ "): " ++ e)
    else
      Except.error ("VethGetPeerLinkByName(): " ++ name ++ " is not veth")
  | Except.error e =>
    Except.error ("VethGetPeerLinkByName(" ++ name ++ "): " ++ e)

/-- `VethGetByName` (src/unnamed/part_001, lines 85–104): a not-found
failure of the peer lookup means the peer belongs to a different namespace
and yields a handle with a nil peer rather than an error. -/
def VethGetByName (s : KState) (name : String) : Except String Veth :=
  match VethGetLinkByName s name with
  | Except.error e =>
    Except.error ("VethGetLinkByName(" ++ name ++ ") " ++ e)
  | Except.ok l =>
    match VethGetPeerLinkByName s name with
    | Except.ok p => Except.ok { link := l, peer := some p }
    | Except.error e =>
      if IsNotFound e then
        -- the peer belongs to a different namespace
        Except.ok { link := l, peer := none }
      else
        Except.error ("VethGetPeerLinkByName(" ++ name ++ "): " ++ e)

/-- `VethAdd` (src/unnamed/part_001, lines 114–158; identically veth.go,
lines 108–152).  Returns the Go pair (handle pointer, error): after a
successful creation, a failed bring-up of either endpoint still returns the
handle, together with the error message.  (The source overwrites `msg`
instead of appending when both bring-ups fail — modelled as written.) -/
def VethAdd (s : KState) (name peer : String) (up : Bool) :
    (Option Veth × Option String) × KState :=
  let l : LinkObj :=
    { name := name, index := 0, txQLen := 1000, mtu := 1500,
      numTxQueues := 1, numRxQueues := 1 }
  match linkAddVethPair s l peer with
  | Except.error e => ((none, some e), s)
  | Except.ok s1 =>
    match VethGetLinkByName s1 name with
    | Except.error e =>
      ((none, some ("VethGetLinkByName(" ++ name ++ "): " ++ e)), s1)
    | Except.ok vl =>
      match VethGetPeerLinkByName s1 name with
      | Except.error e =>
        ((none, some ("VethGetPeerLinkByName(" ++ name ++ "): " ++ e)), s1)
      | Except.ok vp =>
        let veth : Veth := { link := vl, peer := some vp }
        if up then
          match linkSetUp s1 vl with
          | Except.error e1 =>
            let msg1 := "LinkSetUp(" ++ veth.name ++ "): " ++ e1
            match linkSetUp s1 vp with
            | Except.error e2 =>
              ((some veth, some ("LinkSetUp(" ++ veth.peerName ++ "): " ++ e2)), s1)
            | Except.ok s2 => ((some veth, some msg1), s2)
          | Except.ok s2 =>
            match linkSetUp s2 vp with
            | Except.error e2 =>
              ((some veth, some ("LinkSetUp(" ++ veth.peerName ++ "): " ++ e2)), s2)
            | Except.ok s3 => ((some veth, none), s3)
        else
          ((some veth, none), s1)

/-- `Veth.IpAddrReplace` (src/unnamed/part_001, lines 234–252), for
`intf = Self`: replace on the local endpoint, then bring it up. -/
def Veth.ipAddrReplaceSelf (v : Veth) (s : KState) (addr : IPNet) (up : Bool) :
    Except String KState :=
  match addrReplace s v.link addr with
  | Except.error e => Except.error e
  | Except.ok s1 =>
    if up then linkSetUp s1 v.link else Except.ok s1

/-! ## Bridges (bridge.go) -/

/-- `Bridge` (bridge.go): a handle on the bridge's link object. -/
structure Bridge where
  link : LinkObj
deriving DecidableEq, Repr

/-- `Bridge.Name` (bridge.go). -/
def Bridge.name (br : Bridge) : String := br.link.name

/-- `Bridge.IfUp` (bridge.go). -/
def Bridge.ifUp (br : Bridge) (s : KState) : Except String KState :=
  linkSetUp s br.link

/-- `Bridge.BindIf` (bridge.go, lines 218–226). -/
def Bridge.bindIf (br : Bridge) (s : KState) (ifName : String) :
    Except String KState :=
  match linkByName s ifName with
  | Except.ok l => linkSetMasterByIndex s l br.link.index
  | Except.error e =>
    Except.error ("BindIf(" ++ br.name ++ ", " ++ ifName ++ "): LinkByName(): " ++ e)

/-- `BridgeGetByName` (bridge.go, lines 123–134). -/
def BridgeGetByName (s : KState) (name : String) : Except String Bridge :=
  match linkByName s name with
  | Except.ok l =>
    if l.kind = LinkKind.bridge then Except.ok { link := l }
    else Except.error ("BridgeGetByName(" ++ name ++ "): not a bridge")
  | Except.error e =>
    Except.error ("BridgeGetByName(" ++ name ++ "): " ++ e)

/-- The `SIOCSIFBR`/`BRCTL_ADD_BRIDGE` ioctl issued by `bridgeModify`:
errno EEXIST when the name is taken, otherwise creates the bridge link
(administratively down).  (`copy` truncation of names beyond IFNAMSIZ-1
bytes is not modelled; all names in scope are shorter.) -/
def brctlAddBridge (s : KState) (name : String) : Except String KState :=
  linkAddSingle s { name := name, index := 0, kind := LinkKind.bridge }

/-- `bridgeModify` (bridge.go, lines 51–96) for `op = Add`, as the control
flow is written: when the ioctl succeeds and the new bridge resolves, the
handle is returned only on the `up` branch — with `up = false` the function
falls through to the trailing `return nil, fmt.Errorf(banner, errno)` even
though the bridge was created (errno is 0 there).  Returns the Go pair
(handle pointer, error). -/
def bridgeModifyAdd (s : KState) (name : String) (up : Bool) :
    (Option Bridge × Option String) × KState :=
  let banner := "BridgeAdd(" ++ name ++ "): "
  match brctlAddBridge s name with
  | Except.ok s1 =>
    match BridgeGetByName s1 name with
    | Except.ok br =>
      if up then
        match br.ifUp s1 with
        | Except.ok s2 => ((some br, none), s2)
        | Except.error e => ((some br, some e), s1)
      else
        ((none, some (banner ++ "errno 0")), s1)
    | Except.error e => ((none, some e), s1)
  | Except.error _ =>
    -- non-zero errno from the ioctl (e.g. EEXIST)
    ((none, some (banner ++ "file exists")), s)

/-- `BridgeAdd` (bridge.go, lines 94–96). -/
def BridgeAdd (s : KState) (name : String) (up : Bool) :
    (Option Bridge × Option String) × KState :=
  bridgeModifyAdd s name up

/-! ## VRFs (vrf.go / src/unnamed/part_004) -/

/-- `Vrf` (vrf.go): name, ifindex and forwarding-table id. -/
structure Vrf where
  name : String
  index : Nat
  tid : Nat
deriving DecidableEq, Repr

/-- `VrfGetLinkByName` (vrf.go, lines 57–68). -/
def VrfGetLinkByName (s : KState) (name : String) : Except String LinkObj :=
  match linkByName s name with
  | Except.ok l =>
    if l.kind = LinkKind.vrf then Except.ok l
    else Except.error ("Error: VrfGetByName(" ++ name ++ "): not VRF")
  | Except.error e => Except.error e

/-- `VrfGetByName` (vrf.go, lines 94–104): nil handle together with the
error on failure. -/
def VrfGetByName (s : KState) (name : String) : Except String Vrf :=
  match VrfGetLinkByName s name with
  | Except.ok l =>
    Except.ok { name := l.name, index := l.index, tid := l.vrfTable }
  | Except.error e => Except.error e

/-- `VrfGetRoutesByTid` (vrf.go, lines 197–204): `RouteListFiltered` with
the table and type filters, restricted to the requested family
(`FAMILY_ALL = 0` matches every family). -/
def VrfGetRoutesByTid (s : KState) (tid : Int) (family : Int) (tableType : Int) :
    List RouteObj :=
  s.routes.filter (fun r =>
    r.table = tid && r.rtype = tableType && (family == 0 || r.family == family))

/-- Result of a Go call that may return normally, return an error, or
panic (nil-pointer dereference). -/
inductive GoResult (α : Type) where
  | ok (a : α)
  | err (e : String)
  | nilDeref
deriving DecidableEq, Repr

/-- `VrfGetRoutesByName` (vrf.go, lines 217–224): on a failed lookup the
error branch formats `vrf.Name` where `vrf` is the nil pointer returned by
`VrfGetByName`, a nil-pointer dereference. -/
def VrfGetRoutesByName (s : KState) (name : String) (family : Int)
    (tblType : Int) : GoResult (List RouteObj) :=
  match VrfGetByName s name with
  | Except.ok vrf => GoResult.ok (VrfGetRoutesByTid s (Int.ofNat vrf.tid) family tblType)
  | Except.error _ =>
    -- errMsg := fmt.Sprintf("Error: VrfGetRoutesByName(%s): ", vrf.Name)
    -- with vrf == nil
    GoResult.nilDeref

/-- `VrfBindIntf` (vrf.go, lines 131–141). -/
def VrfBindIntf (s : KState) (vrfName ifName : String) : Except String KState :=
  match VrfGetLinkByName s vrfName with
  | Except.ok vrf =>
    match linkByName s ifName with
    | Except.ok l => linkSetMasterByIndex s l vrf.index
    | Except.error e => Except.error e
  | Except.error e => Except.error e

/-- Modelled from the spec: the three-argument `VrfAdd(name, tid, up)`
returning a handle, called by the orchestrator (src/unnamed/part_000,
line 93) but absent from src/ (src/ only has the two-argument revision).
Spec §4.1: `add(name, kind-specific params, bring_up) -> Handle |
AlreadyExists | KernelError` — creates the object and, when `bring_up`,
sets administrative state up as one logical unit; a handle with the error
is returned when the bring-up fails after creation. -/
def VrfAdd3 (s : KState) (name : String) (tid : Nat) (up : Bool) :
    (Option Vrf × Option String) × KState :=
  match linkAddSingle s { name := name, index := 0, kind := LinkKind.vrf,
                          vrfTable := tid } with
  | Except.error e => ((none, some e), s)
  | Except.ok s1 =>
    match VrfGetByName s1 name with
    | Except.error e => ((none, some e), s1)
    | Except.ok vrf =>
      if up then
        match linkSetUp s1 { name := name, index := vrf.index } with
        | Except.ok s2 => ((some vrf, none), s2)
        | Except.error e => ((some vrf, some e), s1)
      else
        ((some vrf, none), s1)

/-- Modelled from the spec: the `Vrf.BindIf` method called by the
orchestrator (src/unnamed/part_000, line 141) but absent from src/.
Spec §4.2: `bind(master_name, subordinate_name)` sets the subordinate's
master; src/ provides the same operation as the free function
`VrfBindIntf`, to which the method delegates with the handle's name. -/
def Vrf.bindIf (vrf : Vrf) (s : KState) (ifName : String) : Except String KState :=
  VrfBindIntf s vrf.name ifName

/-! ## Namespace relocation (netns.go)

The `go_netns` channel is modelled by a world holding the process's current
namespace handle, the named-namespace table, and success oracles for the
three fallible kernel actions `IfUnsetNS` performs (capturing the caller's
handle, the interior interface move, and the switch back).  Error strings
are abstracted to structured messages carrying the same parameters the
source formats; concatenation of the source's `errMsg` string is list
append, the empty string is `[]`. -/

/-- The namespace-channel world. -/
structure NsWorld where
  current : Nat
  nsHandles : List (String × Nat) := []
  getMyOk : Bool := true
  moveOk : Bool := true
  restoreOk : Bool := true
deriving DecidableEq, Repr

/-- A call issued to the namespace/netlink channels by `IfUnsetNS`. -/
inductive NsCall where
  | getMyHandle
  | setByName (ns : String)
  | moveIfToPid (ifName : String) (pid : Nat)
  | setByHandle (h : Nat)
  | closeNs
deriving DecidableEq, Repr

/-- A component of the accumulated `errMsg` of `IfUnsetNS`. -/
inductive NsMsg where
  | moveFailed (ifName : String)
  | restoreFailed (nsName : String)
deriving DecidableEq, Repr

/-- The distinct error outcomes of `IfUnsetNS`: the two early returns and
the accumulated message of the combined move/restore failures. -/
inductive NsErr where
  | getMyHandleErr (nsName : String)
  | enterErr (nsName : String)
  | combined (msgs : List NsMsg)
deriving DecidableEq, Repr

/-- `IfUnsetNS` (netns.go, lines 65–105): capture the current handle,
switch into `nsName`, move `ifName` to the root namespace (pid 1), and
switch back to the captured handle — the switch back runs even when the
move failed, and its failure is appended to the move's message. -/
def IfUnsetNS (w : NsWorld) (ifName nsName : String) :
    Except NsErr Unit × NsWorld × List NsCall :=
  -- save the current namespace handle
  if w.getMyOk = false then
    (Except.error (NsErr.getMyHandleErr nsName), w, [NsCall.getMyHandle])
  else
    let h := w.current
    -- switch to namespace `nsName'
    match w.nsHandles.lookup nsName with
    | none =>
      (Except.error (NsErr.enterErr nsName), w,
        [NsCall.getMyHandle, NsCall.setByName nsName])
    | some tgt =>
      let w1 := { w with current := tgt }
      -- delete interface from this namespace
      let msgs1 := if w.moveOk then [] else [NsMsg.moveFailed ifName]
      -- back to original namespace
      let (w2, msgs) :=
        if w.restoreOk then ({ w1 with current := h }, msgs1)
        else (w1, msgs1 ++ [NsMsg.restoreFailed nsName])
      let tr := [NsCall.getMyHandle, NsCall.setByName nsName,
                 NsCall.moveIfToPid ifName 1, NsCall.setByHandle h, NsCall.closeNs]
      if msgs = [] then (Except.ok (), w2, tr)
      else (Except.error (NsErr.combined msgs), w2, tr)

/-! ## The build orchestrator (src/unnamed/part_000, `addNetwork`)

`addNetwork` builds the bridge+VRF fan-out topology: bridge `br1`, VRF
`vrf1` (table 1), veth pairs `vrf11-br1`/`br1-vrf11` and
`vrf12-br1`/`br1-vrf12`, the VRF-side legs carrying `192.168.1.1/24` and
`192.168.1.2/24`.  `errExit` is `Except.error`; the branch taken at each
lookup is recorded as an event. -/

/-- Which branch each reconciliation step of `addNetwork` took. -/
inductive Ev where
  | bridgeExists
  | bridgeAdded
  | vrfExists
  | vrfAdded
  | vethExists (name : String)
  | vethAdded (name : String)
  | addrExists (name : String)
deriving DecidableEq, Repr

/-- The binding and addressing steps of one veth leg of `addNetwork`
(src/unnamed/part_000, lines 139–163): bind the local endpoint to the VRF,
the peer to the bridge, then `IpAddrReplace` with bring-up, swallowing an
exists-classified error. -/
def bindAndAddr (s : KState) (vrf : Vrf) (br : Bridge) (veth : Veth)
    (pfx : IPNet) : Except String (KState × List Ev) :=
  match vrf.bindIf s veth.name with
  | Except.error e => Except.error ("vrf.BindIf(" ++ veth.name ++ "): " ++ e)
  | Except.ok s1 =>
    match br.bindIf s1 veth.peerName with
    | Except.error e => Except.error ("br.BindIf(" ++ veth.name ++ "): " ++ e)
    | Except.ok s2 =>
      match veth.ipAddrReplaceSelf s2 pfx true with
      | Except.ok s3 => Except.ok (s3, [])
      | Except.error e =>
        if IsExist e then Except.ok (s2, [Ev.addrExists veth.name])
        else Except.error ("IpAddrAdd(" ++ veth.name ++ "): " ++ e)

/-- One iteration of the veth loop of `addNetwork` (src/unnamed/part_000,
lines 114–164): look the local endpoint up by name, create the pair
(brought up) if absent, then bind and address it. -/
def addVethLeg (s : KState) (vrf : Vrf) (br : Bridge) (if1 if2 : String)
    (pfx : IPNet) : Except String (KState × List Ev) :=
  match VethGetByName s if1 with
  | Except.ok veth =>
    match bindAndAddr s vrf br veth pfx with
    | Except.ok (s1, evs) => Except.ok (s1, Ev.vethExists if1 :: evs)
    | Except.error e => Except.error e
  | Except.error e =>
    if IsNotFound e then
      match VethAdd s if1 if2 true with
      | ((_, some e1), _) =>
        Except.error ("addNetwork(): VethAdd(" ++ if1 ++ ", " ++ if2 ++ "): " ++ e1)
      | ((some veth, none), s1) =>
        match bindAndAddr s1 vrf br veth pfx with
        | Except.ok (s2, evs) => Except.ok (s2, Ev.vethAdded if1 :: evs)
        | Except.error e1 => Except.error e1
      | ((none, none), _) =>
        -- Go would dereference the nil handle in the success log line
        Except.error "panic: nil pointer dereference"
    else
      Except.error ("addNetwork(): VethGetByName(" ++ if1 ++ "): " ++ e)

/-- `addNetwork` (src/unnamed/part_000, lines 57–165). -/
def addNetwork (s : KState) : Except String (KState × List Ev) :=
  -- Create a bridge
  let bridgeStep : Except String (Bridge × KState × List Ev) :=
    match BridgeGetByName s "br1" with
    | Except.ok br => Except.ok (br, s, [Ev.bridgeExists])
    | Except.error e =>
      if IsNotFound e then
        match BridgeAdd s "br1" true with
        | ((_, some e1), _) =>
          Except.error ("addNetwork(): BridgeAdd(br1, up): " ++ e1)
        | ((some br, none), s1) => Except.ok (br, s1, [Ev.bridgeAdded])
        | ((none, none), _) => Except.error "panic: nil pointer dereference"
      else
        Except.error ("addNetwork(): BridgeGetByName(br1): " ++ e)
  match bridgeStep with
  | Except.error e => Except.error e
  | Except.ok (br, s1, evs1) =>
    -- Create a VRF
    let vrfStep : Except String (Vrf × KState × List Ev) :=
      match VrfGetByName s1 "vrf1" with
      | Except.ok vrf => Except.ok (vrf, s1, [Ev.vrfExists])
      | Except.error e =>
        if IsNotFound e then
          match VrfAdd3 s1 "vrf1" 1 true with
          | ((_, some e1), _) =>
            Except.error ("addNetwork(): VrfAdd(vrf1, up): " ++ e1)
          | ((some vrf, none), s2) => Except.ok (vrf, s2, [Ev.vrfAdded])
          | ((none, none), _) => Except.error "panic: nil pointer dereference"
        else
          Except.error ("addNetwork(): VrfGetByName(vrf1): " ++ e)
    match vrfStep with
    | Except.error e => Except.error e
    | Except.ok (vrf, s2, evs2) =>
      -- veth legs; net.ParseCIDR("192.168.1.1/24") and ...1.2/24 parse to
      -- these concrete prefixes (the source then sets p.IP to the host address)
      match addVethLeg s2 vrf br "vrf11-br1" "br1-vrf11" ⟨[192, 168, 1, 1], 24⟩ with
      | Except.error e => Except.error e
      | Except.ok (s3, evs3) =>
        match addVethLeg s3 vrf br "vrf12-br1" "br1-vrf12" ⟨[192, 168, 1, 2], 24⟩ with
        | Except.error e => Except.error e
        | Except.ok (s4, evs4) =>
          Except.ok (s4, evs1 ++ evs2 ++ evs3 ++ evs4)

/-! ## Theorems -/

/-- Matching at the start of `l` succeeds. -/
def reHit (re : RE) (l : List Char) : Bool := !(reMatch re l).isEmpty

lemma isPrefixOf_append (p q l : List Char) :
    (p ++ q).isPrefixOf l = (p.isPrefixOf l && q.isPrefixOf (l.drop p.length)) := by
  induction p generalizing l with
  | nil => simp [List.isPrefixOf]
  | cons a p ih =>
    cases l with
    | nil => simp [List.isPrefixOf]
    | cons b l => simp [List.isPrefixOf, ih, Bool.and_assoc]

lemma reHit_lit (p l : List Char) : reHit (RE.lit p) l = p.isPrefixOf l := by
  by_cases h : p.isPrefixOf l <;> simp [reHit, reMatch, h]

lemma prefix_append_iff (p q l : List Char) :
    (p ++ q) <+: l ↔ p <+: l ∧ q <+: l.drop p.length := by
  rw [← List.isPrefixOf_iff_prefix, isPrefixOf_append, Bool.and_eq_true,
    List.isPrefixOf_iff_prefix, List.isPrefixOf_iff_prefix]

lemma reHit_exists_iff (l : List Char) :
    reHit reExists l = true ↔
      ("already exists".data <+: l ∨ "file exists".data <+: l) := by
  have h1 : "already exists".data = "already".data ++ " exists".data := rfl
  have h2 : "file exists".data = "file".data ++ " exists".data := rfl
  rw [h1, h2, prefix_append_iff, prefix_append_iff]
  by_cases ha : ("already".data : List Char) <+: l <;>
    by_cases hf : ("file".data : List Char) <+: l <;>
      by_cases he1 : ((" exists".data : List Char) <+: l.drop "already".data.length) <;>
        by_cases he2 : ((" exists".data : List Char) <+: l.drop "file".data.length) <;>
          simp [reHit, reExists, reMatch, ha, hf, he1, he2,
            List.isPrefixOf_iff_prefix] <;> tauto

lemma reSearch_iff_exists_suffix (re : RE) (l : List Char) :
    reSearch re l = true ↔ ∃ t, t <:+ l ∧ reHit re t = true := by
  induction l with
  | nil =>
    constructor
    · intro h
      exact ⟨[], List.suffix_refl [], h⟩
    · rintro ⟨t, ht, hh⟩
      rw [List.suffix_nil] at ht
      subst ht
      exact hh
  | cons c rest ih =>
    constructor
    · intro h
      rcases Bool.or_eq_true_iff.mp h with h1 | h2
      · exact ⟨c :: rest, List.suffix_refl _, h1⟩
      · rcases ih.mp h2 with ⟨t, ht, hh⟩
        exact ⟨t, ht.trans (List.suffix_cons c rest), hh⟩
    · rintro ⟨t, ht, hh⟩
      rcases List.suffix_cons_iff.mp ht with h1 | h2
      · subst h1
        exact Bool.or_eq_true_iff.mpr (Or.inl hh)
      · exact Bool.or_eq_true_iff.mpr (Or.inr (ih.mpr ⟨t, h2, hh⟩))

lemma reSearch_exists_iff (l : List Char) :
    reSearch reExists l = true ↔
      ("already exists".data <:+: l ∨ "file exists".data <:+: l) := by
  rw [reSearch_iff_exists_suffix]
  constructor
  · rintro ⟨t, ht, hh⟩
    rcases (reHit_exists_iff t).mp hh with h | h
    · exact Or.inl (List.infix_iff_prefix_suffix.mpr ⟨t, h, ht⟩)
    · exact Or.inr (List.infix_iff_prefix_suffix.mpr ⟨t, h, ht⟩)
  · rintro (h | h) <;> rcases List.infix_iff_prefix_suffix.mp h with ⟨t, hp, hs⟩
    · exact ⟨t, hs, (reHit_exists_iff t).mpr (Or.inl hp)⟩
    · exact ⟨t, hs, (reHit_exists_iff t).mpr (Or.inr hp)⟩

lemma reSearch_lit_iff (p l : List Char) :
    reSearch (RE.lit p) l = true ↔ p <:+: l := by
  rw [reSearch_iff_exists_suffix]
  constructor
  · rintro ⟨t, ht, hh⟩
    rw [reHit_lit] at hh
    exact List.infix_iff_prefix_suffix.mpr ⟨t, List.isPrefixOf_iff_prefix.mp hh, ht⟩
  · intro h
    rcases List.infix_iff_prefix_suffix.mp h with ⟨t, hp, hs⟩
    exact ⟨t, hs, by rw [reHit_lit]; exact List.isPrefixOf_iff_prefix.mpr hp⟩

/-- C8: the error-classification predicates are pure functions of the
rendered error text: `IsExist err` holds iff the text contains
"already exists" or "file exists" (the regex `(already|file) exists`), and
`IsNotFound err` holds iff the text contains "not found". -/
theorem isExist_isNotFound_text_classification (err : String) :
    (IsExist err = true ↔
      ("already exists".data <:+: err.data ∨ "file exists".data <:+: err.data)) ∧
    (IsNotFound err = true ↔ "not found".data <:+: err.data) := by
  constructor
  · exact reSearch_exists_iff err.data
  · exact reSearch_lit_iff "not found".data err.data

/-- C1: `NewRoute` is pure validation — with a nil destination it fails for
every next-hop list; with a destination and an empty next-hop list it fails;
with a destination and a non-empty next-hop list it succeeds and the built
route has the given destination and exactly one next-hop per given gateway,
in order.  The embedding of `NewRoute` takes no kernel state: the source
performs no kernel call on any path. -/
theorem newRoute_validation (dst : IPNet) (nh : List (List Nat)) (hnh : nh ≠ []) :
    (∀ nhAny : List (List Nat), ∃ e, NewRoute none nhAny = Except.error e) ∧
    (∃ e, NewRoute (some dst) [] = Except.error e) ∧
    ∃ r, NewRoute (some dst) nh = Except.ok r ∧
      r.dst = some dst ∧ r.multiPath.length = nh.length ∧
      r.multiPath.map NHinfo.gw = nh := by
  refine ⟨fun nhAny => ⟨_, rfl⟩, ⟨_, rfl⟩, ?_⟩
  have hlen : ¬ nh.length ≤ 0 := by
    cases nh with
    | nil => exact absurd rfl hnh
    | cons a t => simp
  refine ⟨{ dst := some dst, multiPath := nh.map (fun ipa => { gw := ipa }) },
    by simp [NewRoute, hlen], rfl, by simp, ?_⟩
  rw [List.map_map]
  have hcomp : (NHinfo.gw ∘ fun ipa => ({ gw := ipa } : NHinfo)) = id := rfl
  rw [hcomp, List.map_id]

/-- Witness for C1 at `dst = 192.168.1.0/24`, `nh = [10.0.0.1]`: the
one-element next-hop list yields a route with a single next-hop carrying
that gateway. -/
theorem newRoute_validation_witness :
    ∃ r, NewRoute (some ⟨[192, 168, 1, 0], 24⟩) [[10, 0, 0, 1]] = Except.ok r ∧
      r.dst = some ⟨[192, 168, 1, 0], 24⟩ ∧ r.multiPath.length = 1 ∧
      r.multiPath.map NHinfo.gw = [[10, 0, 0, 1]] :=
  (newRoute_validation ⟨[192, 168, 1, 0], 24⟩ [[10, 0, 0, 1]] (by decide)).2.2

lemma bytesCompare_lt_iff (x y : List Nat) :
    bytesCompare x y < 0 ↔ lexLt x y = true := by
  induction x generalizing y with
  | nil => cases y <;> simp [bytesCompare, lexLt]
  | cons a xs ih =>
    cases y with
    | nil => simp [bytesCompare, lexLt]
    | cons b ys =>
      by_cases h1 : a < b
      · simp [bytesCompare, lexLt, h1]
      · by_cases h2 : b < a
        · have hne : ¬ a = b := by omega
          simp [bytesCompare, lexLt, h1, h2, hne]
        · have hab : a = b := by omega
          simp [bytesCompare, lexLt, h1, h2, hab, ih]

lemma lexLt_trichotomy (x y : List Nat) :
    lexLt x y = true ∨ lexLt y x = true ∨ x = y := by
  induction x generalizing y with
  | nil => cases y <;> simp [lexLt]
  | cons a xs ih =>
    cases y with
    | nil => simp [lexLt]
    | cons b ys =>
      rcases Nat.lt_trichotomy a b with h | h | h
      · exact Or.inl (by simp [lexLt, h])
      · subst h
        rcases ih ys with h2 | h2 | h2
        · exact Or.inl (by simp [lexLt, h2])
        · exact Or.inr (Or.inl (by simp [lexLt, h2]))
        · exact Or.inr (Or.inr (by rw [h2]))
      · exact Or.inr (Or.inl (by simp [lexLt, h]))

/-- C10: `IPs.Less` panics on two addresses of different byte lengths (so
sorting a mixed IPv4/IPv6 next-hop list panics at the first such
comparison), and on equal lengths it returns exactly the byte-lexicographic
strict order — which is trichotomous, so sorting an equal-length slice is
total and byte-lexicographic. -/
theorem ipsLess_mixed_panics_equal_lex (a : List (List Nat)) (i j : Nat)
    (x y : List Nat) (hi : a[i]? = some x) (hj : a[j]? = some y) :
    (x.length ≠ y.length → IPsLess a i j = PanicOr.panicked) ∧
    (x.length = y.length → IPsLess a i j = PanicOr.ok (lexLt x y)) ∧
    (lexLt x y = true ∨ lexLt y x = true ∨ x = y) := by
  have hdec : decide (bytesCompare x y < 0) = lexLt x y := by
    by_cases h : bytesCompare x y < 0
    · simp [h, (bytesCompare_lt_iff x y).mp h]
    · have h2 : lexLt x y = false := by
        rcases Bool.eq_false_or_eq_true (lexLt x y) with ht | ht
        · exact absurd ((bytesCompare_lt_iff x y).mpr ht) h
        · exact ht
      simp [h, h2]
  refine ⟨fun hne => ?_, fun heq => ?_, lexLt_trichotomy x y⟩
  · simp [IPsLess, hi, hj, hne]
  · simp [IPsLess, hi, hj, heq, hdec]

/-- Witness for C10 at the input of `TestIPsortFailure` (iproute_test.go):
the 16-byte `2001::1` against the 4-byte `4.3.2.1` panics. -/
theorem ipsLess_mixed_panics_witness :
    IPsLess [[32, 1, 0, 0, 0, 0, 0, 0, 0, 0, 0, 0, 0, 0, 0, 1], [4, 3, 2, 1]] 0 1
      = PanicOr.panicked :=
  (ipsLess_mixed_panics_equal_lex
    [[32, 1, 0, 0, 0, 0, 0, 0, 0, 0, 0, 0, 0, 0, 0, 1], [4, 3, 2, 1]] 0 1
    [32, 1, 0, 0, 0, 0, 0, 0, 0, 0, 0, 0, 0, 0, 0, 1] [4, 3, 2, 1]
    rfl rfl).1 (by decide)

/-! ### Lookup/update lemmas for the kernel-state model -/

/-- Kernel invariant: ifindexes are unique among the visible links. -/
def wfIdx (s : KState) : Prop := (s.links.map LinkObj.index).Nodup

lemma linkByName_mem_name {s : KState} {name : String} {l : LinkObj}
    (h : linkByName s name = Except.ok l) : l ∈ s.links ∧ l.name = name := by
  unfold linkByName at h
  cases hf : s.links.find? (fun x => x.name = name) with
  | none => rw [hf] at h; exact absurd h (by simp)
  | some x =>
    rw [hf] at h
    cases h
    refine ⟨List.mem_of_find?_eq_some hf, ?_⟩
    have := List.find?_some hf
    simpa using this

lemma find?_index_of_mem {ls : List LinkObj} {l : LinkObj}
    (hnd : (ls.map LinkObj.index).Nodup) (hmem : l ∈ ls) :
    ls.find? (fun x => x.index = l.index) = some l := by
  induction ls with
  | nil => cases hmem
  | cons a t ih =>
    rw [List.map_cons, List.nodup_cons] at hnd
    rcases List.mem_cons.mp hmem with h | h
    · subst h
      exact List.find?_cons_of_pos _ (by simp)
    · have hne : (a.index = l.index) = False := by
        simp only [eq_iff_iff, iff_false]
        intro he
        exact hnd.1 (he ▸ List.mem_map_of_mem LinkObj.index h)
      rw [List.find?_cons_of_neg _ (by simp [hne]), ih hnd.2 h]

lemma linkByIndex_of_mem {s : KState} {l : LinkObj} (hwf : wfIdx s)
    (hmem : l ∈ s.links) : linkByIndex s l.index = Except.ok l := by
  unfold linkByIndex
  rw [find?_index_of_mem hwf hmem]

lemma find?_name_updateList {ls : List LinkObj} {name : String} {l : LinkObj}
    (f : LinkObj → LinkObj) (hf : ∀ x, (f x).name = x.name)
    (h : ls.find? (fun x => x.name = name) = some l) :
    (ls.map (fun x => if x.index = l.index then f x else x)).find?
      (fun x => x.name = name) = some (f l) := by
  induction ls with
  | nil => simp at h
  | cons a t ih =>
    by_cases ha : a.name = name
    · have hal : a = l := by
        rw [List.find?_cons_of_pos _ (by simp [ha])] at h
        exact Option.some.inj h
      subst hal
      rw [List.map_cons, if_pos rfl]
      exact List.find?_cons_of_pos _ (by simp [hf, ha])
    · rw [List.find?_cons_of_neg _ (by simp [ha])] at h
      rw [List.map_cons]
      have hname : (if a.index = l.index then f a else a).name = a.name := by
        by_cases hi : a.index = l.index <;> simp [hi, hf]
      rw [List.find?_cons_of_neg _ (by simp [hname, ha])]
      exact ih h

lemma linkByName_updateLink {s : KState} {name : String} {l : LinkObj}
    (f : LinkObj → LinkObj) (hf : ∀ x, (f x).name = x.name)
    (h : linkByName s name = Except.ok l) :
    linkByName (updateLink s l.index f) name = Except.ok (f l) := by
  unfold linkByName at h ⊢
  cases hfind : s.links.find? (fun x => x.name = name) with
  | none => rw [hfind] at h; simp at h
  | some x =>
    rw [hfind] at h
    have hxl : x = l := by injection h
    subst hxl
    rw [show (updateLink s x.index f).links
          = s.links.map (fun y => if y.index = x.index then f y else y) from rfl,
      find?_name_updateList f hf hfind]

lemma wfIdx_updateLink {s : KState} (idx : Nat) (f : LinkObj → LinkObj)
    (hf : ∀ x, (f x).index = x.index) (h : wfIdx s) :
    wfIdx (updateLink s idx f) := by
  unfold wfIdx updateLink at *
  have heq : (s.links.map (fun x => if x.index = idx then f x else x)).map
        LinkObj.index = s.links.map LinkObj.index := by
    rw [List.map_map]
    refine List.map_congr_left (fun x _ => ?_)
    by_cases hx : x.index = idx <;> simp [hx, hf]
  rw [heq]
  exact h

lemma setUpFails_updateLink (s : KState) (idx : Nat) (f : LinkObj → LinkObj) :
    (updateLink s idx f).setUpFails = s.setUpFails := rfl

lemma contains_eq_true_of_mem {l : List IPNet} {a : IPNet} (h : a ∈ l) :
    l.contains a = true := by
  simpa [List.contains] using h

lemma contains_eq_false_of_not_mem {l : List IPNet} {a : IPNet} (h : a ∉ l) :
    l.contains a = false := by
  simpa [List.contains] using h

lemma ipAddrReplace_step (s : KState) (name : String) (addr : IPNet) (l : LinkObj)
    (hwf : wfIdx s) (hl : linkByName s name = Except.ok l)
    (hup : s.setUpFails.contains l.name = false) :
    ∃ s' l', IpAddrReplace s name addr true = Except.ok s' ∧
      wfIdx s' ∧ s'.setUpFails = s.setUpFails ∧
      linkByName s' name = Except.ok l' ∧ l'.name = l.name ∧ l'.index = l.index ∧
      l'.addrs = (if addr ∈ l.addrs then l.addrs else l.addrs ++ [addr]) := by
  obtain ⟨hmem, hname⟩ := linkByName_mem_name hl
  by_cases hma : addr ∈ l.addrs
  · refine ⟨updateLink s l.index (fun x => { x with up := true }),
      { l with up := true }, ?_, ?_, rfl, ?_, rfl, rfl, by simp [hma]⟩
    · simp only [IpAddrReplace, hl, addrReplace, linkByIndex_of_mem hwf hmem,
        contains_eq_true_of_mem hma, if_true, linkSetUp, hup]
      rfl
    · exact wfIdx_updateLink l.index _ (fun x => rfl) hwf
    · exact linkByName_updateLink _ (fun x => rfl) hl
  · have h1 : linkByName (updateLink s l.index
        (fun x => { x with addrs := x.addrs ++ [addr] })) name
        = Except.ok { l with addrs := l.addrs ++ [addr] } :=
      linkByName_updateLink _ (fun x => rfl) hl
    refine ⟨updateLink (updateLink s l.index
        (fun x => { x with addrs := x.addrs ++ [addr] })) l.index
        (fun x => { x with up := true }),
      { l with addrs := l.addrs ++ [addr], up := true }, ?_, ?_, rfl, ?_, rfl, rfl,
      by simp [hma]⟩
    · simp only [IpAddrReplace, hl, addrReplace, linkByIndex_of_mem hwf hmem,
        contains_eq_false_of_not_mem hma, Bool.false_eq_true, if_false, linkSetUp,
        setUpFails_updateLink, hup]
      rfl
    · exact wfIdx_updateLink l.index _ (fun x => rfl)
        (wfIdx_updateLink l.index _ (fun x => rfl) hwf)
    · exact linkByName_updateLink (fun x => { x with up := true }) (fun x => rfl) h1

/-- C4: on a state where `name` resolves (ifindexes unique, bring-up
succeeding, at most one bound copy of the prefix — the kernel never holds
duplicates), `IpAddrReplace` with the same prefix and `up = true` succeeds
twice in a row and leaves the interface with exactly one instance of the
prefix, while `IpAddrAdd` on a prefix not yet bound succeeds once and fails
the second time with an error classified `AlreadyExists` by `IsExist`. -/
theorem ipAddrReplace_idempotent_ipAddrAdd_exists
    (s : KState) (name : String) (addr : IPNet) (l : LinkObj)
    (hwf : wfIdx s) (hl : linkByName s name = Except.ok l)
    (hup : s.setUpFails.contains l.name = false)
    (hcount : l.addrs.count addr ≤ 1) :
    (∃ s1 s2 l2, IpAddrReplace s name addr true = Except.ok s1 ∧
        IpAddrReplace s1 name addr true = Except.ok s2 ∧
        linkByName s2 name = Except.ok l2 ∧ l2.addrs.count addr = 1) ∧
    (addr ∉ l.addrs → ∃ s1, IpAddrAdd s name addr true = Except.ok s1 ∧
        ∃ e, IpAddrAdd s1 name addr true = Except.error e ∧ IsExist e = true) := by
  obtain ⟨hmem, hname⟩ := linkByName_mem_name hl
  constructor
  · obtain ⟨s1, l1, hr1, hwf1, hsf1, hl1, hn1, hi1, ha1⟩ :=
      ipAddrReplace_step s name addr l hwf hl hup
    have hup1 : s1.setUpFails.contains l1.name = false := by
      rw [hsf1, hn1]; exact hup
    obtain ⟨s2, l2, hr2, hwf2, hsf2, hl2, hn2, hi2, ha2⟩ :=
      ipAddrReplace_step s1 name addr l1 hwf1 hl1 hup1
    refine ⟨s1, s2, l2, hr1, hr2, hl2, ?_⟩
    have hmem1 : addr ∈ l1.addrs := by
      rw [ha1]
      by_cases hma : addr ∈ l.addrs <;> simp [hma]
    rw [ha2, if_pos hmem1, ha1]
    by_cases hma : addr ∈ l.addrs
    · rw [if_pos hma]
      have hpos : 0 < l.addrs.count addr := List.count_pos_iff.mpr hma
      omega
    · rw [if_neg hma]
      have hz : l.addrs.count addr = 0 := by
        simpa using List.count_eq_zero.mpr hma
      simp [List.count_append, hz]
  · intro hnew
    have h1 : linkByName (updateLink s l.index
        (fun x => { x with addrs := x.addrs ++ [addr] })) name
        = Except.ok { l with addrs := l.addrs ++ [addr] } :=
      linkByName_updateLink _ (fun x => rfl) hl
    have hwf1 : wfIdx (updateLink s l.index
        (fun x => { x with addrs := x.addrs ++ [addr] })) :=
      wfIdx_updateLink l.index _ (fun x => rfl) hwf
    have hadd1 : IpAddrAdd s name addr true = Except.ok
        (updateLink (updateLink s l.index
          (fun x => { x with addrs := x.addrs ++ [addr] })) l.index
          (fun x => { x with up := true })) := by
      simp only [IpAddrAdd, hl, addrAdd, linkByIndex_of_mem hwf hmem,
        contains_eq_false_of_not_mem hnew, Bool.false_eq_true, if_false, linkSetUp,
        setUpFails_updateLink, hup]
      rfl
    refine ⟨_, hadd1, ?_⟩
    have h2 : linkByName (updateLink (updateLink s l.index
        (fun x => { x with addrs := x.addrs ++ [addr] })) l.index
        (fun x => { x with up := true })) name
        = Except.ok { l with addrs := l.addrs ++ [addr], up := true } :=
      linkByName_updateLink (fun x => { x with up := true }) (fun x => rfl) h1
    have hwf2 : wfIdx (updateLink (updateLink s l.index
        (fun x => { x with addrs := x.addrs ++ [addr] })) l.index
        (fun x => { x with up := true })) :=
      wfIdx_updateLink l.index _ (fun x => rfl) hwf1
    obtain ⟨hmem2, _⟩ := linkByName_mem_name h2
    refine ⟨"file exists", ?_, by decide⟩
    simp only [IpAddrAdd, h2, addrAdd, linkByIndex_of_mem hwf2 hmem2,
      contains_eq_true_of_mem (show addr ∈ l.addrs ++ [addr] by simp), if_true]

/-- Fixtures for the C4 witness. -/
def sampleLink : LinkObj := { name := "eth0", index := 1 }

def sampleState : KState := { links := [sampleLink] }

def sampleAddr : IPNet := { ip := [192, 168, 1, 1], maskLen := 24 }

/-- Witness for C4 on a one-interface state with a fresh prefix. -/
theorem ipAddrReplace_idempotent_witness :
    (∃ s1 s2 l2, IpAddrReplace sampleState "eth0" sampleAddr true = Except.ok s1 ∧
        IpAddrReplace s1 "eth0" sampleAddr true = Except.ok s2 ∧
        linkByName s2 "eth0" = Except.ok l2 ∧ l2.addrs.count sampleAddr = 1) ∧
    ∃ s1, IpAddrAdd sampleState "eth0" sampleAddr true = Except.ok s1 ∧
        ∃ e, IpAddrAdd s1 "eth0" sampleAddr true = Except.error e ∧
          IsExist e = true := by
  have h := ipAddrReplace_idempotent_ipAddrAdd_exists sampleState "eth0" sampleAddr
    sampleLink (by unfold wfIdx; decide) (by decide) (by decide) (by decide)
  exact ⟨h.1, h.2 (by decide)⟩

lemma isNotFound_append_of (a b : String) (h : IsNotFound b = true) :
    IsNotFound (a ++ b) = true := by
  have hb := (reSearch_lit_iff "not found".data b.data).mp h
  refine (reSearch_lit_iff "not found".data (a ++ b).data).mpr ?_
  rw [String.data_append a b]
  exact hb.trans (List.suffix_append a.data b.data).isInfix

/-- C6: when `name` resolves to a veth whose peer ifindex does not resolve
in the current namespace (the peer lives in another namespace, a not-found
condition), `VethGetByName` succeeds with a nil peer handle, and the
handle's peer name is the empty string. -/
theorem vethGetByName_weak_peer (s : KState) (name : String) (l : LinkObj)
    (pidx : Nat) (hl : linkByName s name = Except.ok l)
    (hkind : l.kind = LinkKind.veth) (hpi : l.peerIndex = some pidx)
    (habs : s.links.find? (fun x => x.index = pidx) = none) :
    VethGetByName s name = Except.ok { link := l, peer := none } ∧
      Veth.peerName { link := l, peer := none } = "" := by
  have hget : VethGetLinkByName s name = Except.ok l := by
    simp only [VethGetLinkByName, hl, hkind, if_true]
  have hpeer : VethGetPeerLinkByName s name
      = Except.error ("LinkByIndex(" ++ name ++ "): " ++ "Link not found") := by
    simp only [VethGetPeerLinkByName, hl, hkind, if_true, vethPeerIndex, hpi,
      linkByIndex, habs]
  have hnf : IsNotFound ("LinkByIndex(" ++ name ++ "): " ++ "Link not found")
      = true := by
    rw [String.append_assoc]
    exact isNotFound_append_of _ _ (isNotFound_append_of _ _ (by decide))
  refine ⟨?_, rfl⟩
  simp only [VethGetByName, hget, hpeer, hnf, if_true]

/-- Fixture for the C6 witness: a veth endpoint whose peer index resolves
nowhere in the current namespace. -/
def strandedVeth : LinkObj :=
  { name := "v0", index := 1, kind := LinkKind.veth, peerIndex := some 99 }

/-- Witness for C6 on a one-link state whose veth peer is absent. -/
theorem vethGetByName_weak_peer_witness :
    VethGetByName { links := [strandedVeth] } "v0"
        = Except.ok { link := strandedVeth, peer := none } ∧
      Veth.peerName { link := strandedVeth, peer := none } = "" :=
  vethGetByName_weak_peer { links := [strandedVeth] } "v0" strandedVeth 99
    (by decide) (by decide) (by decide) (by decide)

/-- C5: when the veth pair is created (both names fresh) but the bring-up
of either endpoint fails, `VethAdd` with `up = true` returns the non-nil
handle together with a non-nil error — the created pair is not rolled
back.  (`hidx` is the kernel invariant that fresh ifindexes are really
fresh.) -/
theorem vethAdd_partial_success (s : KState) (name peer : String)
    (hfresh : ∀ x ∈ s.links, x.name ≠ name ∧ x.name ≠ peer)
    (hidx : ∀ x ∈ s.links, x.index ≠ s.nextIndex ∧ x.index ≠ s.nextIndex + 1)
    (hfail : s.setUpFails.contains name = true ∨
      s.setUpFails.contains peer = true) :
    ∃ v e s', VethAdd s name peer true = ((some v, some e), s') := by
  set l0 : LinkObj := { name := name, index := 0, txQLen := 1000, mtu := 1500, numTxQueues := 1, numRxQueues := 1 } with hl0
  set A : LinkObj := { l0 with index := s.nextIndex, kind := LinkKind.veth, peerIndex := some (s.nextIndex + 1) } with hA
  set B : LinkObj := { l0 with name := peer, index := s.nextIndex + 1, kind := LinkKind.veth, peerIndex := some s.nextIndex } with hB
  set s1 : KState := { s with links := s.links ++ [A, B], nextIndex := s.nextIndex + 2 } with hs1
  have hfindn : s.links.find? (fun x => x.name = name || x.name = peer)
      = none :=
    List.find?_eq_none.mpr (fun x hx => by
      simp [(hfresh x hx).1, (hfresh x hx).2])
  have hpair : linkAddVethPair s l0 peer = Except.ok s1 := by
    simp only [linkAddVethPair, hfindn, Option.isSome_none, Bool.false_eq_true,
      if_false]
  have hfind1 : s.links.find? (fun x => x.name = name) = none :=
    List.find?_eq_none.mpr (fun x hx => by simp [(hfresh x hx).1])
  have hbn : linkByName s1 name = Except.ok A := by
    unfold linkByName
    rw [show s1.links = s.links ++ [A, B] from rfl, List.find?_append, hfind1]
    simp [hA, hl0]
  have hgetA : VethGetLinkByName s1 name = Except.ok A := by
    simp only [VethGetLinkByName, hbn, hA, if_true]
  have hfindi : s.links.find? (fun x => x.index = s.nextIndex + 1) = none :=
    List.find?_eq_none.mpr (fun x hx => by simp [(hidx x hx).2])
  have hbi : linkByIndex s1 (s.nextIndex + 1) = Except.ok B := by
    unfold linkByIndex
    rw [show s1.links = s.links ++ [A, B] from rfl, List.find?_append, hfindi]
    have : ¬ (s.nextIndex = s.nextIndex + 1) := by omega
    simp [hA, hB, hl0, this]
  have hgetB : VethGetPeerLinkByName s1 name = Except.ok B := by
    simp only [VethGetPeerLinkByName, hbn, hA, if_true, vethPeerIndex, hbi]
  have hsf1 : s1.setUpFails = s.setUpFails := rfl
  by_cases h1 : s.setUpFails.contains name = true
  · have hup1 : linkSetUp s1 A = Except.error "operation not permitted" := by
      simp only [linkSetUp, hsf1, hA, hl0, h1, if_true]
    by_cases h2 : s.setUpFails.contains peer = true
    · have hup2 : linkSetUp s1 B = Except.error "operation not permitted" := by
        simp only [linkSetUp, hsf1, hB, hl0, h2, if_true]
      exact ⟨_, _, _, by simp only [VethAdd, hpair, hgetA, hgetB, if_true, hup1, hup2]; exact rfl⟩
    · have hup2 : linkSetUp s1 B
          = Except.ok (updateLink s1 B.index (fun x => { x with up := true })) := by
        simp only [linkSetUp, hsf1, hB, hl0]
        rw [if_neg (by simpa using h2)]
      exact ⟨_, _, _, by simp only [VethAdd, hpair, hgetA, hgetB, if_true, hup1, hup2]; exact rfl⟩
  · have h2 : s.setUpFails.contains peer = true := by
      rcases hfail with h | h
      · exact absurd h h1
      · exact h
    have hup1 : linkSetUp s1 A
        = Except.ok (updateLink s1 A.index (fun x => { x with up := true })) := by
      simp only [linkSetUp, hsf1, hA, hl0]
      rw [if_neg (by simpa using h1)]
    have hup2 : linkSetUp (updateLink s1 A.index (fun x => { x with up := true })) B
        = Except.error "operation not permitted" := by
      simp only [linkSetUp, setUpFails_updateLink, hsf1, hB, hl0, h2, if_true]
    exact ⟨_, _, _, by simp only [VethAdd, hpair, hgetA, hgetB, if_true, hup1, hup2]; exact rfl⟩

/-- Witness for C5: empty kernel, bring-up of the peer endpoint fails. -/
theorem vethAdd_partial_success_witness :
    ∃ v e s', VethAdd { setUpFails := ["p0"] } "v0" "p0" true
      = ((some v, some e), s') :=
  vethAdd_partial_success { setUpFails := ["p0"] } "v0" "p0"
    (by intro x hx; cases hx) (by intro x hx; cases hx) (Or.inr (by decide))

/-- C7: evaluation of `BridgeAdd` at the failing input `up = false` on an
empty kernel.  The ioctl succeeds and the created bridge resolves by name
afterwards, yet the function returns a nil handle together with a non-nil
error (the fall-through `return nil, fmt.Errorf(banner, errno)` with
errno 0); with `up = true` the same call returns the handle and a nil
error.  This contradicts both the claim and the function's own
documentation ("Pointer to bridge if it is successfully added ... nil if
success"). -/
theorem bridgeAdd_up_false_fall_through :
    (BridgeAdd {} "br0" false).1
        = (none, some "BridgeAdd(br0): errno 0") ∧
    BridgeGetByName (BridgeAdd {} "br0" false).2 "br0"
        = Except.ok { link := { name := "br0", index := 1, kind := LinkKind.bridge } } ∧
    BridgeAdd {} "br0" true
        = ((some { link := { name := "br0", index := 1, kind := LinkKind.bridge } }, none),
           { links := [{ name := "br0", index := 1, kind := LinkKind.bridge, up := true }], nextIndex := 2 }) := by
  refine ⟨rfl, rfl, rfl⟩

/-- C9: whenever the inner `VrfGetByName` lookup fails (the name does not
resolve as a VRF), `VrfGetRoutesByName` dereferences the nil `Vrf` pointer
while formatting its error message and panics instead of returning the
underlying lookup error. -/
theorem vrfGetRoutesByName_nil_deref (s : KState) (name : String)
    (family tblType : Int) (h : ∃ e, VrfGetByName s name = Except.error e) :
    VrfGetRoutesByName s name family tblType = GoResult.nilDeref := by
  rcases h with ⟨e, he⟩
  simp only [VrfGetRoutesByName, he]

/-- Witness for C9: looking up the routes of an absent VRF on the empty
kernel panics. -/
theorem vrfGetRoutesByName_nil_deref_witness :
    VrfGetRoutesByName {} "vrf0" 2 1 = GoResult.nilDeref :=
  vrfGetRoutesByName_nil_deref {} "vrf0" 2 1 ⟨"Link not found", rfl⟩

/-- C2: `IfUnsetNS` (i) attempts the switch back to the captured handle on
every control path that entered the target namespace, even when the
interior interface move failed; (ii) when it returns nil the namespace
active after the call equals the namespace active before it; (iii)–(vi)
failures to capture the caller's handle, to enter the target namespace, of
the interface move, and of the restore are reported as distinct error
values, and when both the move and the restore fail both messages are
surfaced.  A move-only failure still restores the original namespace. -/
theorem ifUnsetNS_restores_namespace (w : NsWorld) (ifName nsName : String) :
    ((IfUnsetNS w ifName nsName).2.2.head? = some NsCall.getMyHandle) ∧
    (w.getMyOk = true → w.nsHandles.lookup nsName ≠ none →
      NsCall.setByHandle w.current ∈ (IfUnsetNS w ifName nsName).2.2) ∧
    ((IfUnsetNS w ifName nsName).1 = Except.ok () →
      (IfUnsetNS w ifName nsName).2.1.current = w.current) ∧
    (w.getMyOk = false →
      (IfUnsetNS w ifName nsName).1 = Except.error (NsErr.getMyHandleErr nsName)) ∧
    (w.getMyOk = true → w.nsHandles.lookup nsName = none →
      (IfUnsetNS w ifName nsName).1 = Except.error (NsErr.enterErr nsName)) ∧
    (w.getMyOk = true → w.nsHandles.lookup nsName ≠ none →
      w.moveOk = false → w.restoreOk = true →
      (IfUnsetNS w ifName nsName).1
          = Except.error (NsErr.combined [NsMsg.moveFailed ifName]) ∧
        (IfUnsetNS w ifName nsName).2.1.current = w.current) ∧
    (w.getMyOk = true → w.nsHandles.lookup nsName ≠ none →
      w.moveOk = true → w.restoreOk = false →
      (IfUnsetNS w ifName nsName).1
          = Except.error (NsErr.combined [NsMsg.restoreFailed nsName])) ∧
    (w.getMyOk = true → w.nsHandles.lookup nsName ≠ none →
      w.moveOk = false → w.restoreOk = false →
      (IfUnsetNS w ifName nsName).1
          = Except.error (NsErr.combined
              [NsMsg.moveFailed ifName, NsMsg.restoreFailed nsName])) := by
  cases hg : w.getMyOk <;>
    cases hlk : w.nsHandles.lookup nsName <;>
      cases hm : w.moveOk <;>
        cases hr : w.restoreOk <;>
          simp [IfUnsetNS, hg, hlk, hm, hr]

/-- Fixture for the C2 witness: current namespace handle 7, target
namespace "ns1" available, all kernel actions succeeding. -/
def sampleNsWorld : NsWorld := { current := 7, nsHandles := [("ns1", 3)] }

/-- Witness for C2: on a world where everything succeeds, the switch back
to the captured handle 7 is attempted and the current namespace after the
nil return equals the one before. -/
theorem ifUnsetNS_restores_namespace_witness :
    NsCall.setByHandle 7 ∈ (IfUnsetNS sampleNsWorld "eth0" "ns1").2.2 ∧
    (IfUnsetNS sampleNsWorld "eth0" "ns1").2.1.current = 7 :=
  ⟨(ifUnsetNS_restores_namespace sampleNsWorld "eth0" "ns1").2.1 rfl (by decide),
   (ifUnsetNS_restores_namespace sampleNsWorld "eth0" "ns1").2.2.1 (by decide)⟩

/-- The kernel state `addNetwork` builds from the empty kernel: bridge
`br1` and VRF `vrf1` up, the two veth pairs up and bound (local legs to the
VRF, peers to the bridge), the VRF-side legs carrying their prefix. -/
def builtState : KState :=
  { links :=
      [{ name := "br1", index := 1, kind := LinkKind.bridge, up := true },
       { name := "vrf1", index := 2, kind := LinkKind.vrf, up := true, vrfTable := 1 },
       { name := "vrf11-br1", index := 3, kind := LinkKind.veth, up := true,
         master := some 2, addrs := [{ ip := [192, 168, 1, 1], maskLen := 24 }],
         peerIndex := some 4, txQLen := 1000, mtu := 1500, numTxQueues := 1,
         numRxQueues := 1 },
       { name := "br1-vrf11", index := 4, kind := LinkKind.veth, up := true,
         master := some 1, peerIndex := some 3, txQLen := 1000, mtu := 1500,
         numTxQueues := 1, numRxQueues := 1 },
       { name := "vrf12-br1", index := 5, kind := LinkKind.veth, up := true,
         master := some 2, addrs := [{ ip := [192, 168, 1, 2], maskLen := 24 }],
         peerIndex := some 6, txQLen := 1000, mtu := 1500, numTxQueues := 1,
         numRxQueues := 1 },
       { name := "br1-vrf12", index := 6, kind := LinkKind.veth, up := true,
         master := some 1, peerIndex := some 5, txQLen := 1000, mtu := 1500,
         numTxQueues := 1, numRxQueues := 1 }],
    nextIndex := 7 }

set_option maxHeartbeats 4000000 in
/-- C3: running the build protocol on the empty kernel succeeds (creating
bridge, VRF and both veth legs), and running it a second time on the
resulting state succeeds again with exactly the same final state — and
every lookup of the second run takes the found branch (bridge, VRF and
veth creation are skipped; the address step goes through the idempotent
replace path without error). -/
theorem addNetwork_idempotent :
    addNetwork {} = Except.ok (builtState,
      [Ev.bridgeAdded, Ev.vrfAdded, Ev.vethAdded "vrf11-br1",
       Ev.vethAdded "vrf12-br1"]) ∧
    addNetwork builtState = Except.ok (builtState,
      [Ev.bridgeExists, Ev.vrfExists, Ev.vethExists "vrf11-br1",
       Ev.vethExists "vrf12-br1"]) := by
  constructor <;> decide

end Iproute
